import Mathlib

/-!
Verification development for the document-ingestion job pipeline of the
elasticsearch-rag-manager backend: a shallow embedding of the chunking
strategies, the embedding batcher, the bounded job queue, the pipeline
executor and the worker loop, together with theorems settling the frozen
claims about them.

Sources embedded (all paths relative to the repository root):
- backend/utils/_chunking.py (naive_sentence_chunking, naive_word_chunking)
- backend/utils/_execute_job.py (class execute)
- backend/utils/_job_management.py (class _JobManagement)
- backend/utils/_elastic_search.py (post_add_data / post_modify_data effects)
- backend/main.py (add_jobs endpoint)
-/

namespace ERM

/-! ## Python string helpers

The chunkers measure text with the Python expressions s.split(" "),
" ".join(l) and s.strip(); the sentence splitter is
re.split of the pattern (?<=\.) |\n.  These are embedded below over
List Char so that every proof sees their exact semantics, including the
artifacts Python produces (an empty string splits to a one-element list,
a trailing separator yields a trailing empty token).
-/

def isPySpace (c : Char) : Bool :=
  c = ' ' || c = '\n' || c = '\t' || c = '\r'

/-- Python s.split(" "): split at every single space, keeping empty parts. -/
def splitOnSpaceAux : List Char → List Char → List (List Char)
  | [], cur => [cur.reverse]
  | c :: rest, cur =>
    if c = ' ' then cur.reverse :: splitOnSpaceAux rest []
    else splitOnSpaceAux rest (c :: cur)

def pySplitSpace (s : String) : List String :=
  (splitOnSpaceAux s.data []).map (fun l => String.mk l)

/-- Python s.strip(): drop leading and trailing whitespace. -/
def pyStrip (s : String) : String :=
  String.mk (((s.data.dropWhile (fun c => isPySpace c)).reverse.dropWhile
    (fun c => isPySpace c)).reverse)

/-- Python re.split of the pattern (?<=\.) |\n (used at _chunking.py line 55):
split at a space that follows a period (consuming only the space) and at
every newline. -/
def splitSentencesAux : List Char → List Char → List (List Char)
  | [], cur => [cur.reverse]
  | '.' :: ' ' :: rest, cur => ('.' :: cur).reverse :: splitSentencesAux rest []
  | '\n' :: rest, cur => cur.reverse :: splitSentencesAux rest []
  | c :: rest, cur => splitSentencesAux rest (c :: cur)

def split_sentences (s : String) : List String :=
  (splitSentencesAux s.data []).map (fun l => String.mk l)

/-- Python " ".join(l). -/
def pyJoinSpace : List String → String
  | [] => ""
  | [x] => x
  | x :: xs => x ++ " " ++ pyJoinSpace xs

/-- Python s.startswith(pre). -/
def pyStartswith (s pre : String) : Bool :=
  pre.data.isPrefixOf s.data

/-! ## Fixed-sentence chunking (_chunking.py, naive_sentence_chunking.start,
lines 38-73)

The inner loop of start over one content unit, embedded at the level of the
chunk text payloads (the source wraps each payload in a serialized template
record; the claims are about the text).  The loop state is the Python
variable chunked_text; the word-count test and the accumulation are exactly
the source expressions. -/

def nsc_loop (chunkSize : Nat) : String → List String → List String
  | acc, [] => [pyStrip acc]
  | acc, s :: rest =>
    if (pySplitSpace acc).length + (pySplitSpace s).length < chunkSize then
      nsc_loop chunkSize (acc ++ s ++ " ") rest
    else
      pyStrip acc :: nsc_loop chunkSize s rest

/-- Processing of one content unit that has a text field: sentence split
(line 55) followed by the greedy loop (lines 61-71). -/
def naive_sentence_chunking_start_unit (chunkSize : Nat) (text : String) :
    List String :=
  nsc_loop chunkSize "" (split_sentences text)

/-- The accumulated string a run of consecutive sentences produces:
chunked_text starts as init and each further sentence is appended as
sentence followed by one space. -/
def nsc_fill (init : String) (g : List String) : String :=
  g.foldl (fun a s => a ++ s ++ " ") init

/-- Rendering of the chunk groups after the first: each group starts from
its own head sentence (the one whose arrival flushed the previous chunk). -/
def nsc_render_tail (gs : List (List String)) : List String :=
  gs.map (fun g => pyStrip (nsc_fill (g.headD "") g.tail))

/-! ## Fixed-word chunking (_chunking.py, naive_word_chunking.start,
lines 93-101)

The source initialises chunked_texts = [], then for each content computes
tokens, the stride chunk_size - int(chunk_size * overlap), the index list
np.arange(0, len(tokens), stride) and the window list, but binds the window
list to the separate local variable chunked_text and never appends it to
chunked_texts, which is what the function returns.  The embedding keeps both
variables as the two components of the fold accumulator.  The float
computation int(chunk_size * overlap) is taken as the already-truncated
natural number ov. -/

/-- np.arange(0, stop, step) for a positive step: the multiples of step
below stop. -/
def arange (stop step : Nat) : List Nat :=
  (List.range ((stop + step - 1) / step)).map (fun k => k * step)

/-- The window list the loop body computes: for each start index i,
" ".join(tokens[i : i + chunk_size]). -/
def windows_of (chunkSize stride : Nat) (tokens : List String) : List String :=
  (arange tokens.length stride).map
    (fun i => pyJoinSpace ((tokens.drop i).take chunkSize))

/-- naive_word_chunking.start: the fold carries
(chunked_texts, chunked_text); only the second component is ever written,
and the first is returned. -/
def naive_word_chunking_start (chunkSize ov : Nat)
    (retrievedText : List String) : List String :=
  (retrievedText.foldl
    (fun acc content =>
      let tokens := pySplitSpace content
      let chunkedText := windows_of chunkSize (chunkSize - ov) tokens
      (acc.1, chunkedText))
    (([] : List String), ([] : List String))).1

/-! ## Embedding batcher (_execute_job.py, execute.embed_text, lines 151-189)

The loop slices self.output into consecutive batches of batch_size texts
(range(0, len, batch_size)), calls the embedding provider on each batch, and
either extends a flat vector list (full_vector) or zips each batch with its
vectors into pairs (chunked_pairs).  The provider call
model.embedding(name, batch) is taken at its contract from _models_api.py
lines 62-72: one vector per input text, in input order, modelled as
batch.map f for an abstract per-text embedding f. -/

/-- Consecutive slices l[i : i + b] for i in range(0, len(l), b), with the
list length as structural fuel so that the definition evaluates by rfl.
Matches the Python slicing for every b at least 1 (Python raises for b = 0,
which callers never pass: batch sizes are positive configuration values). -/
def chunks_of_fuel (b : Nat) : Nat → List α → List (List α)
  | _, [] => []
  | 0, _ :: _ => []
  | fuel + 1, x :: xs =>
    (x :: xs.take (b - 1)) :: chunks_of_fuel b fuel (xs.drop (b - 1))

def chunks_of (b : Nat) (l : List α) : List (List α) :=
  chunks_of_fuel b l.length l

/-- The full_vector arm of the batching loop: output.extend(batch_vector)
for each batch. -/
def embed_text_full_vector_vectors (f : τ → α) (batchSize : Nat)
    (texts : List τ) : List α :=
  ((chunks_of batchSize texts).map (fun batch => batch.map f)).flatten

/-- The chunked_pairs arm: for text, vector in zip(batch_text, batch_vector)
append the pair. -/
def embed_text_chunked_pairs (f : τ → α) (batchSize : Nat)
    (texts : List τ) : List (τ × α) :=
  ((chunks_of batchSize texts).map
    (fun batch => batch.zip (batch.map f))).flatten

/-! ## Bounded job queue (_job_management.py lines 16-17 and 79-81,
main.py add_jobs lines 235-263)

The queue is collections.deque(maxlen=cfg.max_queue_length); appending to a
full deque silently discards the leftmost (oldest) entry.
_JobManagement.add_new_jobs appends each submitted job in order, and the
add_jobs endpoint reports status success unconditionally.  Jobs are
identified by an opaque string. -/

/-- deque.append with a maxlen bound: when the deque is full the oldest
entries are dropped from the left so that the length never exceeds maxLen. -/
def bounded_append (maxLen : Nat) (q : List String) (j : String) :
    List String :=
  if q.length < maxLen then q ++ [j]
  else (q ++ [j]).drop (q.length + 1 - maxLen)

/-- _JobManagement.add_new_jobs, lines 79-81. -/
def add_new_jobs (maxLen : Nat) (q : List String) (jobs : List String) :
    List String :=
  jobs.foldl (bounded_append maxLen) q

/-- The observable outcome of the add_jobs endpoint (main.py lines 253-263):
the new queue and the reported status, which is always the string success. -/
def add_jobs (maxLen : Nat) (q : List String) (jobs : List String) :
    List String × String :=
  (add_new_jobs maxLen q jobs, "success")

/-! ## Pipeline executor (_execute_job.py, class execute)

The executor state carries the JobContext fields self.current_step,
self.info and self.output, the sequence of document-store writes issued via
es.post_add_data (by index name, in order), and the owning metadata record
(number_of_data and latest_update) touched by es.post_modify_data
(_elastic_search.py lines 102-139).  The ghost field trace records every
assignment to self.current_step, giving the sequence of step values an
observer sampling get_status would see over a run.

Collaborator calls (text extraction, document-store reads and writes, the
embedding provider, the metadata update) are network effects; Env fixes for
one run whether each call succeeds and what payloads and timestamp it
produces.  A Python exception inside a stage is an Except.error carrying the
state at the raise point; since Python mutations made before the raise
persist, the carried state includes them. -/

structure JobInfo where
  target_index_type : String
  index_name_full_text : String
  index_name_full_vector : String
  index_name_chunked_pairs : String
  metadata_index_modify_id : String
  deriving DecidableEq

structure Env where
  extractOk : Bool
  retrieveOk : Bool
  chunkOk : Bool
  embedOk : Bool
  writeOk : Bool
  metaOk : Bool
  now : Nat
  extractedText : String
  retrievedText : String
  chunkedText : String
  embeddedText : String
  deriving DecidableEq

structure ExecState where
  current_step : String
  info : Option JobInfo
  output : Option String
  addedDate : Option Nat
  propsText : Option String
  propsVector : Option String
  propsChunks : Option String
  writes : List String
  metaNumData : Nat
  metaLatestUpdate : Nat
  trace : List String
  deriving DecidableEq

/-- An assignment self.current_step = s, recorded in the observation
trace. -/
def setStep (st : ExecState) (s : String) : ExecState :=
  { st with current_step := s, trace := st.trace ++ [s] }

/-- execute.modify_data, lines 34-54: sets current_step to modify_data, and
when the index name starts with metadata issues es.post_modify_data, which
re-reads the metadata record, stamps latest_update with the current time,
increments number_of_data by one and writes it back; a failing call
raises. -/
def modify_data (env : Env) (modify_index_name : String) (st : ExecState) :
    Except ExecState ExecState :=
  let st := setStep st "modify_data"
  if pyStartswith modify_index_name "metadata" then
    if env.metaOk then
      .ok { st with metaNumData := st.metaNumData + 1,
                    metaLatestUpdate := env.now }
    else .error st
  else .ok st

/-- execute.extract_text, lines 57-65: sets the step, runs the extraction
collaborator and stores the (serialized) result in self.output. -/
def extract_text (env : Env) (st : ExecState) : Except ExecState ExecState :=
  let st := setStep st "extract_text"
  if env.extractOk then .ok { st with output := some env.extractedText }
  else .error st

/-- execute.modify_properties, lines 68-87: sets the step, stamps
properties added_date, and for full_vector and chunked_pairs attaches the
current output to the properties (for full_text only the target index name
is resolved, into a local that the remaining code no longer uses). -/
def modify_properties (env : Env) (info : JobInfo) (st : ExecState) :
    ExecState :=
  let st := setStep st "modify_properties"
  let st := { st with addedDate := some env.now }
  if info.target_index_type = "full_vector" then
    { st with propsVector := st.output }
  else if info.target_index_type = "chunked_pairs" then
    { st with propsChunks := st.output }
  else st

/-- execute.add_to_es, lines 90-115: sets the step, attaches the output to
the properties of the branch matching the target type and issues one
es.post_add_data write to that branch's index (post_add_data re-raises on
failure); then calls modify_data on metadata_ concatenated with the target
type inside try/except, so a metadata failure is caught and logged. -/
def add_to_es (env : Env) (info : JobInfo) (st : ExecState) :
    Except ExecState ExecState :=
  let st := setStep st "add_to_es"
  let writeRes : Except ExecState ExecState :=
    if info.target_index_type = "full_text" then
      let st := { st with propsText := st.output }
      if env.writeOk then
        .ok { st with writes := st.writes ++ [info.index_name_full_text] }
      else .error st
    else if info.target_index_type = "full_vector" then
      let st := { st with propsVector := st.output }
      if env.writeOk then
        .ok { st with writes := st.writes ++ [info.index_name_full_vector] }
      else .error st
    else if info.target_index_type = "chunked_pairs" then
      let st := { st with propsChunks := st.output }
      if env.writeOk then
        .ok { st with writes := st.writes ++ [info.index_name_chunked_pairs] }
      else .error st
    else .ok st
  match writeRes with
  | .error e => .error e
  | .ok st =>
    match modify_data env ("metadata_" ++ info.target_index_type) st with
    | .ok st => .ok st
    | .error st => .ok st

/-- execute.retrieve_text, lines 118-148: sets the step, reads the stored
full text by id from the document store and deserializes it into
self.output. -/
def retrieve_text (env : Env) (st : ExecState) : Except ExecState ExecState :=
  let st := setStep st "retrieve_text"
  if env.retrieveOk then .ok { st with output := some env.retrievedText }
  else .error st

/-- execute.chunk_text, lines 192-203: sets the step and replaces
self.output with the selected strategy's chunk list (for full_vector the
sentence chunker at sequence_length divided by four, for chunked_pairs the
semantic chunker); config and collaborator lookups can raise. -/
def chunk_text (env : Env) (info : JobInfo) (st : ExecState) :
    Except ExecState ExecState :=
  let st := setStep st "chunk_text"
  if info.target_index_type = "full_vector" then
    if env.chunkOk then .ok { st with output := some env.chunkedText }
    else .error st
  else if info.target_index_type = "chunked_pairs" then
    if env.chunkOk then .ok { st with output := some env.chunkedText }
    else .error st
  else .ok st

/-- execute.embed_text, lines 151-189: sets the step and replaces
self.output with the batched embedding result (pooled for full_vector,
text-vector pairs for chunked_pairs); the provider calls can raise.  The
data-level content of the batching loop is modelled exactly by
embed_text_full_vector_vectors and embed_text_chunked_pairs above; here
only the control flow and the step value matter. -/
def embed_text (env : Env) (st : ExecState) : Except ExecState ExecState :=
  let st := setStep st "embed_text"
  if env.embedOk then .ok { st with output := some env.embeddedText }
  else .error st

/-- execute.add_full_text, lines 206-215. -/
def add_full_text (env : Env) (info : JobInfo) (st : ExecState) :
    Except ExecState ExecState :=
  match extract_text env st with
  | .error e => .error e
  | .ok st1 => add_to_es env info (modify_properties env info st1)

/-- execute.add_full_vector, lines 219-234. -/
def add_full_vector (env : Env) (info : JobInfo) (st : ExecState) :
    Except ExecState ExecState :=
  match retrieve_text env st with
  | .error e => .error e
  | .ok st1 =>
    match chunk_text env info st1 with
    | .error e => .error e
    | .ok st2 =>
      match embed_text env st2 with
      | .error e => .error e
      | .ok st3 => add_to_es env info (modify_properties env info st3)

/-- execute.add_chunked_pairs, lines 237-252 (same stage sequence as
add_full_vector). -/
def add_chunked_pairs (env : Env) (info : JobInfo) (st : ExecState) :
    Except ExecState ExecState :=
  match retrieve_text env st with
  | .error e => .error e
  | .ok st1 =>
    match chunk_text env info st1 with
    | .error e => .error e
    | .ok st2 =>
      match embed_text env st2 with
      | .error e => .error e
      | .ok st3 => add_to_es env info (modify_properties env info st3)

/-- The dispatch on job_type inside execute.start, lines 258-263: an
unrecognized job_type selects no pipeline at all. -/
def run_pipeline (env : Env) (info : JobInfo) (job_type : String)
    (st : ExecState) : Except ExecState ExecState :=
  if job_type = "full_text" then add_full_text env info st
  else if job_type = "full_vector" then add_full_vector env info st
  else if job_type = "chunked_pairs" then add_chunked_pairs env info st
  else .ok st

/-- execute.start, lines 255-270: sets self.info, dispatches on job_type,
and on the fall-through exit resets self.info and self.output to None and
self.current_step to idle, returning True.  There is no try/finally: an
exception in any stage propagates and skips the reset. -/
def execute_start (env : Env) (info : JobInfo) (job_type : String)
    (st : ExecState) : Except ExecState (ExecState × Bool) :=
  match run_pipeline env info job_type { st with info := some info } with
  | .error e => .error e
  | .ok st1 =>
    .ok ({ st1 with info := none, output := none, current_step := "idle",
                    trace := st1.trace ++ ["idle"] }, true)

/-- The step observation sequence of a finished or aborted run. -/
def traceOf : Except ExecState (ExecState × Bool) → List String
  | .ok (st, _) => st.trace
  | .error st => st.trace

/-- The index add_to_es writes to for each target type. -/
def target_index_name (info : JobInfo) : String :=
  if info.target_index_type = "full_text" then info.index_name_full_text
  else if info.target_index_type = "full_vector" then
    info.index_name_full_vector
  else if info.target_index_type = "chunked_pairs" then
    info.index_name_chunked_pairs
  else ""

def isOkE : Except ExecState ExecState → Bool
  | .ok _ => true
  | .error _ => false

/-- The carried state of either outcome. -/
def stateOf : Except ExecState ExecState → ExecState
  | .ok st => st
  | .error st => st

/-- A concrete full_text job's settings. -/
def infoFT : JobInfo :=
  { target_index_type := "full_text", index_name_full_text := "ft_idx",
    index_name_full_vector := "fv_idx",
    index_name_chunked_pairs := "cp_idx", metadata_index_modify_id := "m1" }

/-- A run environment in which every collaborator call succeeds. -/
def envAllOk : Env :=
  { extractOk := true, retrieveOk := true, chunkOk := true, embedOk := true,
    writeOk := true, metaOk := true, now := 7, extractedText := "TXT",
    retrievedText := "RTX", chunkedText := "CHK", embeddedText := "EMB" }

/-- A run environment in which the extraction collaborator raises. -/
def envExtractFail : Env := { envAllOk with extractOk := false }

/-- The executor state as built by execute.__init__ (lines 16-18), with an
empty write log, metadata counter zero, and the initial idle observation. -/
def initExec : ExecState :=
  { current_step := "idle", info := none, output := none, addedDate := none,
    propsText := none, propsVector := none, propsChunks := none,
    writes := [], metaNumData := 0, metaLatestUpdate := 0,
    trace := ["idle"] }

/-! ## Job queue worker (_job_management.py, _JobManagement)

start_jobs (lines 39-63) pops jobs from the queue one at a time, records the
popped job as current_job, runs start_job synchronously, clears current_job,
and when the queue is empty sets the status back to idle.  start_job
(lines 84-115) wraps both the settings access and the execute.start call in
try/except blocks that catch every exception, so it always returns: True on
success and a status-False dict on failure, modelled as a Bool.  Whether a
given job's pipeline raises is the oracle jobFails.  The ghost field
processed records each job that was started together with its result.
jobs_history is the dict initialised at line 21, kept as an association
list; record_job_history (lines 66-76) appends to jobs_history at the keys
Success and Failed, which do not exist (the dict has lowercase keys), so the
subscript raises KeyError; were the key present, the appended variable job
is undefined and would raise NameError. -/

structure WorkerState where
  queue : List String
  status : String
  current_job : Option String
  history : List (String × List String)
  processed : List (String × Bool)
  deriving DecidableEq

/-- _JobManagement.start_job: total because every exception inside is
caught; the result is True exactly when the job's pipeline did not raise. -/
def start_job (jobFails : String → Bool) (j : String) : Bool :=
  !(jobFails j)

/-- The worker loop body of start_jobs over the remaining queue. -/
def runQueue (jobFails : String → Bool) :
    List String → WorkerState → WorkerState
  | [], st => { st with status := "idle" }
  | j :: rest, st =>
    runQueue jobFails rest
      { st with queue := rest, current_job := none,
                processed := st.processed ++ [(j, start_job jobFails j)] }

/-- _JobManagement.start_jobs, lines 39-63. -/
def start_jobs (jobFails : String → Bool) (st : WorkerState) : WorkerState :=
  runQueue jobFails st.queue st

/-- The jobs_history dict as initialised at _job_management.py line 21. -/
def jobs_history_init : List (String × List String) :=
  [("success", []), ("failed", [])]

/-- _JobManagement.record_job_history, lines 66-76: the subscript
jobs_history of Success or Failed raises KeyError on the actual dict; if
the key existed, appending the undefined name job would raise NameError.
Either way the call raises instead of recording anything. -/
def record_job_history (history : List (String × List String))
    (result : Bool) : Except String Unit :=
  let key := if result then "Success" else "Failed"
  match history.lookup key with
  | none => .error ("KeyError: " ++ key)
  | some _ => .error "NameError: name job is not defined"

/-- The state execute.start propagates when extraction raises on the
concrete full_text job: the step value and the job settings of the failed
stage are still in place. -/
def cexErrState : ExecState :=
  { current_step := "extract_text", info := some infoFT, output := none,
    addedDate := none, propsText := none, propsVector := none,
    propsChunks := none, writes := [], metaNumData := 0,
    metaLatestUpdate := 0, trace := ["idle", "extract_text"] }

/-- The state execute.start returns after the concrete all-success full_text
run. -/
def stOkFT : ExecState :=
  { current_step := "idle", info := none, output := none,
    addedDate := some 7, propsText := some "TXT", propsVector := none,
    propsChunks := none, writes := ["ft_idx"], metaNumData := 1,
    metaLatestUpdate := 7,
    trace := ["idle", "extract_text", "modify_properties", "add_to_es",
              "modify_data", "idle"] }

/-- A concrete worker state: two queued jobs, empty history, no job in
flight. -/
def wstX : WorkerState :=
  { queue := ["good", "bad"], status := "busy", current_job := none,
    history := jobs_history_init, processed := [] }

/-- A concrete failure oracle: the job named bad raises in its pipeline. -/
def jobFailsX : String → Bool := fun j => j = "bad"

end ERM

namespace ERM

/-- Every run of the greedy sentence loop renders an ordered partition of its
sentence list: the first group extends the incoming accumulator, every later
group is nonempty and starts at the sentence whose arrival flushed the
previous chunk, and the final group is always flushed. -/
theorem nsc_loop_structure (chunkSize : Nat) :
    ∀ (sentences : List String) (acc : String),
    ∃ g1 gs, g1 ++ gs.flatten = sentences ∧ (∀ g ∈ gs, g ≠ []) ∧
      nsc_loop chunkSize acc sentences =
        pyStrip (nsc_fill acc g1) :: nsc_render_tail gs := by
  intro sentences
  induction sentences with
  | nil =>
    intro acc
    exact ⟨[], [], by simp [nsc_loop, nsc_fill, nsc_render_tail]⟩
  | cons s rest ih =>
    intro acc
    by_cases hc :
        (pySplitSpace acc).length + (pySplitSpace s).length < chunkSize
    · obtain ⟨g1, gs, hjoin, hne, hrun⟩ := ih (acc ++ s ++ " ")
      refine ⟨s :: g1, gs, ?_, hne, ?_⟩
      · simp [hjoin]
      · rw [nsc_loop, if_pos hc, hrun]
        rfl
    · obtain ⟨g1, gs, hjoin, hne, hrun⟩ := ih s
      refine ⟨[], (s :: g1) :: gs, ?_, ?_, ?_⟩
      · simp [← hjoin]
      · intro g hg
        rcases List.mem_cons.mp hg with h | h
        · simp [h]
        · exact hne g h
      · rw [nsc_loop, if_neg hc, hrun]
        simp [nsc_render_tail, nsc_fill]

/-- Flattening the batch slices gives back the original list. -/
theorem chunks_of_fuel_flatten (b : Nat) :
    ∀ (fuel : Nat) (l : List α), l.length ≤ fuel →
      (chunks_of_fuel b fuel l).flatten = l := by
  intro fuel
  induction fuel with
  | zero =>
    intro l h
    cases l with
    | nil => simp [chunks_of_fuel]
    | cons x xs => simp at h
  | succ n ih =>
    intro l h
    cases l with
    | nil => simp [chunks_of_fuel]
    | cons x xs =>
      have hlen : (xs.drop (b - 1)).length ≤ n := by
        simp only [List.length_drop]
        simp only [List.length_cons] at h
        omega
      simp only [chunks_of_fuel, List.flatten_cons, ih (xs.drop (b - 1)) hlen]
      simp [List.take_append_drop]

theorem chunks_of_flatten (b : Nat) (l : List α) :
    (chunks_of b l).flatten = l :=
  chunks_of_fuel_flatten b l.length l le_rfl

theorem flatten_map_map (f : α → β) :
    ∀ (L : List (List α)),
      (L.map (fun l => l.map f)).flatten = L.flatten.map f := by
  intro L
  induction L with
  | nil => rfl
  | cons l ls ih =>
    simp only [List.map_cons, List.flatten_cons, List.map_append, ih]

theorem zip_with_map_self (f : α → β) :
    ∀ (l : List α), l.zip (l.map f) = l.map (fun x => (x, f x)) := by
  intro l
  induction l with
  | nil => rfl
  | cons x xs ih => simp [ih]

/-- A fold whose body only rewrites the second accumulator component leaves
the first component untouched (the shape of the naive_word_chunking.start
loop). -/
theorem foldl_keeps_first
    (f : List String × List String → String → List String) :
    ∀ (l : List String) (p : List String × List String),
      (l.foldl (fun acc content => (acc.1, f acc content)) p).1 = p.1 := by
  intro l
  induction l with
  | nil => intro p; rfl
  | cons x xs ih => intro p; exact ih (p.1, f p x)

/-- C5, counterexample: with chunk_size 2, the single-sentence content unit
with text a-space-b-space-c makes fixed-sentence chunking emit the chunks
empty-string and the whole sentence; the second chunk has 3 words, which
exceeds chunk_size, refuting the claim that no emitted chunk exceeds
chunk_size words (and exhibiting an emitted empty chunk as well). -/
theorem c5_sentence_chunk_exceeds_counterexample :
    naive_sentence_chunking_start_unit 2 "a b c" = ["", "a b c"] ∧
    (pySplitSpace "a b c").length = 3 ∧ ¬ (3 ≤ 2) :=
  ⟨rfl, rfl, by decide⟩

/-- C5, amended: for every content unit and chunk_size, fixed-sentence
chunking never splits a sentence across chunks and always flushes the final
partial chunk: its output is exactly the in-order rendering of a partition
of the unit's sentence list (the first group extends the empty accumulator,
each later group is nonempty and starts at the sentence that flushed the
previous chunk).  The chunk_size bound of the original claim does not hold:
a chunk may exceed chunk_size words when a single sentence does. -/
theorem c5_sentence_chunking_partitions (chunkSize : Nat) (text : String) :
    ∃ g1 gs, g1 ++ gs.flatten = split_sentences text ∧
      (∀ g ∈ gs, g ≠ []) ∧
      naive_sentence_chunking_start_unit chunkSize text =
        pyStrip (nsc_fill "" g1) :: nsc_render_tail gs :=
  nsc_loop_structure chunkSize (split_sentences text) ""

/-- C6: naive_word_chunking.start returns the empty list for every input,
because the loop body binds the computed window list to a local variable
that is never appended to the returned accumulator; at the concrete input
with one content of three words, chunk_size 2 and integer overlap 1, the
windows the body computes and discards are a-b, b-c and c, yet the function
returns nothing. -/
theorem c6_word_chunking_returns_nothing :
    (∀ (c ov : Nat) (texts : List String),
      naive_word_chunking_start c ov texts = []) ∧
    naive_word_chunking_start 2 1 ["a b c"] = [] ∧
    windows_of 2 1 (pySplitSpace "a b c") = ["a b", "b c", "c"] := by
  refine ⟨?_, rfl, rfl⟩
  intro c ov texts
  exact foldl_keeps_first
    (fun acc content => windows_of c (c - ov) (pySplitSpace content))
    texts ([], [])

/-- C7: for every per-text embedding f and every batch size of at least one,
the batching loop of execute.embed_text returns exactly one result per input
text in input order: the concatenation of the per-batch provider results
equals mapping f over the whole list, both for the full_vector arm (flat
vector list) and for the chunked_pairs arm (text-vector pairs). -/
theorem c7_embed_batching_order (f : τ → α) (b : Nat) (texts : List τ)
    (hb : 1 ≤ b) :
    embed_text_full_vector_vectors f b texts = texts.map f ∧
    embed_text_chunked_pairs f b texts =
      texts.map (fun t => (t, f t)) := by
  constructor
  · unfold embed_text_full_vector_vectors
    rw [flatten_map_map, chunks_of_flatten]
  · unfold embed_text_chunked_pairs
    have h1 : (chunks_of b texts).map (fun batch => batch.zip (batch.map f))
        = (chunks_of b texts).map
            (fun batch => batch.map (fun t => (t, f t))) := by
      simp [zip_with_map_self f]
    rw [h1, flatten_map_map, chunks_of_flatten]

/-- C7, witness: batch size 2 over four numeric texts. -/
theorem c7_embed_batching_order_witness :
    embed_text_full_vector_vectors (fun n : Nat => n + 1) 2 [10, 20, 30, 40]
        = [10, 20, 30, 40].map (fun n => n + 1) ∧
    embed_text_chunked_pairs (fun n : Nat => n + 1) 2 [10, 20, 30, 40]
        = [10, 20, 30, 40].map (fun t => (t, t + 1)) :=
  c7_embed_batching_order (fun n => n + 1) 2 [10, 20, 30, 40] (by decide)

/-- C2: submitting a job while the queue already holds max_queue_length
entries silently evicts the oldest queued job and still reports success:
with capacity 1 and queued jobA, submitting jobB yields the queue jobB and
the status string success, and jobA is gone — no CapacityError value exists
anywhere in the interface, so a job is lost by a submission that reports
success. -/
theorem c2_full_queue_silently_drops_oldest :
    add_jobs 1 ["jobA"] ["jobB"] = (["jobB"], "success") ∧
    "jobA" ∉ (add_jobs 1 ["jobA"] ["jobB"]).1 ∧
    (["jobA"] : List String).length = 1 :=
  ⟨rfl, by decide, rfl⟩

/-- The worker loop over any remaining queue: starting with a synchronized
queue field and no job in flight, it runs every job in order (recording
each result), empties the queue, leaves no current job, sets the status to
idle, and touches nothing else (in particular not the history). -/
theorem runQueue_spec (jobFails : String → Bool) :
    ∀ (l : List String) (st : WorkerState),
      st.queue = l → st.current_job = none →
      runQueue jobFails l st =
        { st with queue := [], status := "idle", current_job := none,
                  processed := st.processed ++
                    l.map (fun j => (j, start_job jobFails j)) } := by
  intro l
  induction l with
  | nil =>
    intro st h1 h2
    obtain ⟨q, sstat, cj, hist, proc⟩ := st
    simp only [] at h1 h2
    subst h1
    subst h2
    simp [runQueue]
  | cons j rest ih =>
    intro st h1 h2
    rw [runQueue,
        ih { st with queue := rest, current_job := none,
                     processed :=
                       st.processed ++ [(j, start_job jobFails j)] }
          rfl rfl]
    obtain ⟨q, sstat, cj, hist, proc⟩ := st
    simp

/-- C4: for every failure pattern and every worker state with no job in
flight, the worker loop runs every queued job exactly once in order
(failures included), never stops early because a job failed, clears the
current-job context, and ends with an empty queue and status idle. -/
theorem c4_worker_survives_job_failures (jobFails : String → Bool)
    (st : WorkerState) (h : st.current_job = none) :
    (start_jobs jobFails st).status = "idle" ∧
    (start_jobs jobFails st).queue = [] ∧
    (start_jobs jobFails st).current_job = none ∧
    (start_jobs jobFails st).processed =
      st.processed ++ st.queue.map (fun j => (j, start_job jobFails j)) := by
  unfold start_jobs
  rw [runQueue_spec jobFails st.queue st rfl h]
  exact ⟨rfl, rfl, rfl, rfl⟩

/-- C4, witness: a queue holding one succeeding and one failing job. -/
theorem c4_worker_survives_job_failures_witness :
    (start_jobs jobFailsX wstX).status = "idle" ∧
    (start_jobs jobFailsX wstX).queue = [] ∧
    (start_jobs jobFailsX wstX).current_job = none ∧
    (start_jobs jobFailsX wstX).processed =
      wstX.processed ++
        wstX.queue.map (fun j => (j, start_job jobFailsX j)) :=
  c4_worker_survives_job_failures jobFailsX wstX rfl

/-- C9: the worker loop leaves jobs_history untouched for every queue and
failure pattern (the record_job_history call in start_jobs is commented
out), and record_job_history itself cannot record anything: on the actual
history dict it raises KeyError for both outcomes because it subscripts the
capitalized keys Success and Failed while the dict has lowercase keys. -/
theorem c9_job_history_never_recorded (jobFails : String → Bool)
    (st : WorkerState) (h : st.current_job = none) :
    (start_jobs jobFails st).history = st.history ∧
    record_job_history jobs_history_init true =
      .error "KeyError: Success" ∧
    record_job_history jobs_history_init false =
      .error "KeyError: Failed" := by
  refine ⟨?_, rfl, rfl⟩
  unfold start_jobs
  rw [runQueue_spec jobFails st.queue st rfl h]

/-- C9, witness: the concrete two-job run leaves the initial history dict
unchanged. -/
theorem c9_job_history_never_recorded_witness :
    (start_jobs jobFailsX wstX).history = wstX.history ∧
    record_job_history jobs_history_init true =
      .error "KeyError: Success" ∧
    record_job_history jobs_history_init false =
      .error "KeyError: Failed" :=
  c9_job_history_never_recorded jobFailsX wstX rfl

theorem extract_text_error (env : Env) (st e : ExecState)
    (h : extract_text env st = .error e) :
    e.info = st.info ∧ e.current_step = "extract_text" := by
  simp only [extract_text] at h
  split at h
  · exact absurd h (by simp)
  · injection h with h1
    subst h1
    exact ⟨rfl, rfl⟩

theorem extract_text_ok (env : Env) (st s : ExecState)
    (h : extract_text env st = .ok s) : s.info = st.info := by
  simp only [extract_text] at h
  split at h
  · injection h with h1
    subst h1
    rfl
  · exact absurd h (by simp)

theorem retrieve_text_error (env : Env) (st e : ExecState)
    (h : retrieve_text env st = .error e) :
    e.info = st.info ∧ e.current_step = "retrieve_text" := by
  simp only [retrieve_text] at h
  split at h
  · exact absurd h (by simp)
  · injection h with h1
    subst h1
    exact ⟨rfl, rfl⟩

theorem retrieve_text_ok (env : Env) (st s : ExecState)
    (h : retrieve_text env st = .ok s) : s.info = st.info := by
  simp only [retrieve_text] at h
  split at h
  · injection h with h1
    subst h1
    rfl
  · exact absurd h (by simp)

theorem chunk_text_error (env : Env) (info : JobInfo) (st e : ExecState)
    (h : chunk_text env info st = .error e) :
    e.info = st.info ∧ e.current_step = "chunk_text" := by
  simp only [chunk_text] at h
  split at h
  · split at h
    · exact absurd h (by simp)
    · injection h with h1
      subst h1
      exact ⟨rfl, rfl⟩
  · split at h
    · split at h
      · exact absurd h (by simp)
      · injection h with h1
        subst h1
        exact ⟨rfl, rfl⟩
    · exact absurd h (by simp)

theorem chunk_text_ok (env : Env) (info : JobInfo) (st s : ExecState)
    (h : chunk_text env info st = .ok s) : s.info = st.info := by
  simp only [chunk_text] at h
  split at h
  · split at h
    · injection h with h1
      subst h1
      rfl
    · exact absurd h (by simp)
  · split at h
    · split at h
      · injection h with h1
        subst h1
        rfl
      · exact absurd h (by simp)
    · injection h with h1
      subst h1
      rfl

theorem embed_text_error (env : Env) (st e : ExecState)
    (h : embed_text env st = .error e) :
    e.info = st.info ∧ e.current_step = "embed_text" := by
  simp only [embed_text] at h
  split at h
  · exact absurd h (by simp)
  · injection h with h1
    subst h1
    exact ⟨rfl, rfl⟩

theorem embed_text_ok (env : Env) (st s : ExecState)
    (h : embed_text env st = .ok s) : s.info = st.info := by
  simp only [embed_text] at h
  split at h
  · injection h with h1
    subst h1
    rfl
  · exact absurd h (by simp)

theorem modify_properties_info (env : Env) (info : JobInfo)
    (st : ExecState) : (modify_properties env info st).info = st.info := by
  simp only [modify_properties]
  split
  · rfl
  · split <;> rfl

theorem add_to_es_error (env : Env) (info : JobInfo) (st e : ExecState)
    (h : add_to_es env info st = .error e) :
    e.info = st.info ∧ e.current_step = "add_to_es" := by
  simp only [add_to_es] at h
  split at h
  case _ e1 heq =>
    injection h with h1
    subst h1
    split at heq
    · split at heq
      · exact absurd heq (by simp)
      · injection heq with h2
        subst h2
        exact ⟨rfl, rfl⟩
    · split at heq
      · split at heq
        · exact absurd heq (by simp)
        · injection heq with h2
          subst h2
          exact ⟨rfl, rfl⟩
      · split at heq
        · split at heq
          · exact absurd heq (by simp)
          · injection heq with h2
            subst h2
            exact ⟨rfl, rfl⟩
        · exact absurd heq (by simp)
  case _ s1 heq =>
    split at h <;> exact absurd h (by simp)

theorem add_full_text_error (env : Env) (info : JobInfo) (st e : ExecState)
    (h : add_full_text env info st = .error e) :
    e.info = st.info ∧ e.current_step ≠ "idle" := by
  simp only [add_full_text] at h
  split at h
  case _ e1 heq =>
    injection h with h1
    subst h1
    obtain ⟨hi, hs⟩ := extract_text_error env st e1 heq
    exact ⟨hi, by rw [hs]; decide⟩
  case _ st1 heq =>
    obtain ⟨hi, hs⟩ := add_to_es_error env info _ e h
    rw [modify_properties_info, extract_text_ok env st st1 heq] at hi
    exact ⟨hi, by rw [hs]; decide⟩

theorem add_full_vector_error (env : Env) (info : JobInfo)
    (st e : ExecState) (h : add_full_vector env info st = .error e) :
    e.info = st.info ∧ e.current_step ≠ "idle" := by
  simp only [add_full_vector] at h
  split at h
  case _ e1 heq =>
    injection h with h1
    subst h1
    obtain ⟨hi, hs⟩ := retrieve_text_error env st e1 heq
    exact ⟨hi, by rw [hs]; decide⟩
  case _ st1 heq1 =>
    split at h
    case _ e2 heq2 =>
      injection h with h1
      subst h1
      obtain ⟨hi, hs⟩ := chunk_text_error env info st1 e2 heq2
      rw [retrieve_text_ok env st st1 heq1] at hi
      exact ⟨hi, by rw [hs]; decide⟩
    case _ st2 heq2 =>
      split at h
      case _ e3 heq3 =>
        injection h with h1
        subst h1
        obtain ⟨hi, hs⟩ := embed_text_error env st2 e3 heq3
        rw [chunk_text_ok env info st1 st2 heq2,
            retrieve_text_ok env st st1 heq1] at hi
        exact ⟨hi, by rw [hs]; decide⟩
      case _ st3 heq3 =>
        obtain ⟨hi, hs⟩ := add_to_es_error env info _ e h
        rw [modify_properties_info, embed_text_ok env st2 st3 heq3,
            chunk_text_ok env info st1 st2 heq2,
            retrieve_text_ok env st st1 heq1] at hi
        exact ⟨hi, by rw [hs]; decide⟩

theorem add_chunked_pairs_error (env : Env) (info : JobInfo)
    (st e : ExecState) (h : add_chunked_pairs env info st = .error e) :
    e.info = st.info ∧ e.current_step ≠ "idle" := by
  simp only [add_chunked_pairs] at h
  split at h
  case _ e1 heq =>
    injection h with h1
    subst h1
    obtain ⟨hi, hs⟩ := retrieve_text_error env st e1 heq
    exact ⟨hi, by rw [hs]; decide⟩
  case _ st1 heq1 =>
    split at h
    case _ e2 heq2 =>
      injection h with h1
      subst h1
      obtain ⟨hi, hs⟩ := chunk_text_error env info st1 e2 heq2
      rw [retrieve_text_ok env st st1 heq1] at hi
      exact ⟨hi, by rw [hs]; decide⟩
    case _ st2 heq2 =>
      split at h
      case _ e3 heq3 =>
        injection h with h1
        subst h1
        obtain ⟨hi, hs⟩ := embed_text_error env st2 e3 heq3
        rw [chunk_text_ok env info st1 st2 heq2,
            retrieve_text_ok env st st1 heq1] at hi
        exact ⟨hi, by rw [hs]; decide⟩
      case _ st3 heq3 =>
        obtain ⟨hi, hs⟩ := add_to_es_error env info _ e h
        rw [modify_properties_info, embed_text_ok env st2 st3 heq3,
            chunk_text_ok env info st1 st2 heq2,
            retrieve_text_ok env st st1 heq1] at hi
        exact ⟨hi, by rw [hs]; decide⟩

theorem run_pipeline_error (env : Env) (info : JobInfo) (jt : String)
    (st e : ExecState) (h : run_pipeline env info jt st = .error e) :
    e.info = st.info ∧ e.current_step ≠ "idle" := by
  simp only [run_pipeline] at h
  split at h
  · exact add_full_text_error env info st e h
  · split at h
    · exact add_full_vector_error env info st e h
    · split at h
      · exact add_chunked_pairs_error env info st e h
      · exact absurd h (by simp)

/-- C3, counterexample: when the extraction stage raises during a full_text
run, execute.start propagates the exception with the JobContext NOT reset:
the carried state still holds the job settings in info and has current_step
extract_text, not idle — there is no try/finally around the pipeline, so the
cleanup at the end of start is skipped on the exception path. -/
theorem c3_exception_skips_reset_counterexample :
    execute_start envExtractFail infoFT "full_text" initExec =
      .error cexErrState ∧
    cexErrState.info ≠ none ∧ cexErrState.current_step ≠ "idle" :=
  ⟨rfl, by decide, by decide⟩

/-- C3, amended: execute.start resets the JobContext (info and output to
None, current_step to idle) exactly on the normal-completion exit path; when
any pipeline stage raises, the exception propagates to the worker with info
still holding the job settings and current_step still naming a stage, never
idle — cleanup is not guaranteed on the exception exit path. -/
theorem c3_reset_only_on_normal_exit (env : Env) (info : JobInfo)
    (jt : String) (st : ExecState) :
    (∀ stR r, execute_start env info jt st = .ok (stR, r) →
      stR.info = none ∧ stR.output = none ∧ stR.current_step = "idle") ∧
    (∀ e, execute_start env info jt st = .error e →
      e.info = some info ∧ e.current_step ≠ "idle") := by
  constructor
  · intro stR r h
    simp only [execute_start] at h
    split at h
    · exact absurd h (by simp)
    · injection h with h1
      injection h1 with h2 h3
      subst h2
      exact ⟨rfl, rfl, rfl⟩
  · intro e h
    simp only [execute_start] at h
    split at h
    case _ e1 heq =>
      injection h with h1
      subst h1
      obtain ⟨hi, hs⟩ :=
        run_pipeline_error env info jt { st with info := some info } e1 heq
      exact ⟨hi, hs⟩
    case _ st1 heq =>
      exact absurd h (by simp)

/-- C3, witness: the all-success full_text run ends in the reset state. -/
theorem c3_reset_only_on_normal_exit_witness :
    execute_start envAllOk infoFT "full_text" initExec =
      .ok (stOkFT, true) ∧
    (stOkFT.info = none ∧ stOkFT.output = none ∧
      stOkFT.current_step = "idle") :=
  ⟨rfl, (c3_reset_only_on_normal_exit envAllOk infoFT "full_text"
    initExec).1 stOkFT true rfl⟩

/-- C1, counterexample: a completed full_text run observes the current_step
sequence idle, extract_text, modify_properties, add_to_es, modify_data,
idle — modify_data is an additional step value that the claim's exhaustive
list of seven values does not contain, and the sequence is not the claimed
five-element one. -/
theorem c1_modify_data_step_counterexample :
    traceOf (execute_start envAllOk infoFT "full_text" initExec) =
      ["idle", "extract_text", "modify_properties", "add_to_es",
       "modify_data", "idle"] ∧
    "modify_data" ∉
      ["idle", "extract_text", "modify_properties", "add_to_es",
       "retrieve_text", "chunk_text", "embed_text"] ∧
    traceOf (execute_start envAllOk infoFT "full_text" initExec) ≠
      ["idle", "extract_text", "modify_properties", "add_to_es", "idle"] :=
  ⟨rfl, by decide, by decide⟩

/-- C1, amended: for every full_text job whose extraction and document-store
write succeed (a run to completion, whether or not the best-effort metadata
update succeeds), the sequence of current_step values over the run is
exactly idle, extract_text, modify_properties, add_to_es, modify_data,
idle, with no skips or repeats: current_step takes the eighth value
modify_data (set by execute.modify_data, line 35) between add_to_es and the
final idle, in addition to the seven values the original claim lists. -/
theorem c1_full_text_step_sequence (env : Env) (info : JobInfo)
    (hti : info.target_index_type = "full_text")
    (hx : env.extractOk = true) (hw : env.writeOk = true) :
    traceOf (execute_start env info "full_text" initExec) =
      ["idle", "extract_text", "modify_properties", "add_to_es",
       "modify_data", "idle"] := by
  have hsw : pyStartswith "metadata_full_text" "metadata" = true :=
    by decide
  have hne1 : ¬ ("full_text" : String) = "full_vector" := by decide
  have hne2 : ¬ ("full_text" : String) = "chunked_pairs" := by decide
  cases hm : env.metaOk <;>
    simp [execute_start, run_pipeline, add_full_text, extract_text,
          modify_properties, add_to_es, modify_data, setStep, traceOf,
          initExec, hti, hx, hw, hm, hsw, hne1, hne2]

/-- C1, witness: the concrete all-success full_text run. -/
theorem c1_full_text_step_sequence_witness :
    traceOf (execute_start envAllOk infoFT "full_text" initExec) =
      ["idle", "extract_text", "modify_properties", "add_to_es",
       "modify_data", "idle"] :=
  c1_full_text_step_sequence envAllOk infoFT rfl rfl rfl

/-- C8: for every job of one of the three target types whose primary write
succeeds, add_to_es appends exactly one write to that type's target index
and then issues the metadata update: when the update succeeds,
number_of_data on the owning metadata record grows by exactly one and
latest_update is refreshed to the current time; when the update raises, it
is caught (and logged) and add_to_es still returns normally with the
metadata unchanged — the job completes because the primary write already
succeeded. -/
theorem c8_one_write_then_best_effort_metadata (env : Env) (info : JobInfo)
    (st : ExecState) (hw : env.writeOk = true)
    (ht : info.target_index_type = "full_text" ∨
      info.target_index_type = "full_vector" ∨
      info.target_index_type = "chunked_pairs") :
    isOkE (add_to_es env info st) = true ∧
    (stateOf (add_to_es env info st)).writes =
      st.writes ++ [target_index_name info] ∧
    (stateOf (add_to_es env info st)).metaNumData =
      (if env.metaOk then st.metaNumData + 1 else st.metaNumData) ∧
    (env.metaOk = true →
      (stateOf (add_to_es env info st)).metaLatestUpdate = env.now) := by
  have hft : pyStartswith "metadata_full_text" "metadata" = true :=
    by decide
  have hfv : pyStartswith "metadata_full_vector" "metadata" = true :=
    by decide
  have hcp : pyStartswith "metadata_chunked_pairs" "metadata" =
      true := by decide
  have hne1 : ¬ ("full_text" : String) = "full_vector" := by decide
  have hne2 : ¬ ("full_text" : String) = "chunked_pairs" := by decide
  have hne3 : ¬ ("full_vector" : String) = "full_text" := by decide
  have hne4 : ¬ ("full_vector" : String) = "chunked_pairs" := by decide
  have hne5 : ¬ ("chunked_pairs" : String) = "full_text" := by decide
  have hne6 : ¬ ("chunked_pairs" : String) = "full_vector" := by decide
  rcases ht with h | h | h <;> cases hm : env.metaOk <;>
    simp [add_to_es, modify_data, setStep, target_index_name, stateOf,
          isOkE, h, hw, hm, hft, hfv, hcp, hne1, hne2, hne3, hne4, hne5,
          hne6]

/-- C8, witness: the concrete full_text job against the initial executor
state with every collaborator succeeding. -/
theorem c8_one_write_then_best_effort_metadata_witness :
    isOkE (add_to_es envAllOk infoFT initExec) = true ∧
    (stateOf (add_to_es envAllOk infoFT initExec)).writes =
      initExec.writes ++ [target_index_name infoFT] ∧
    (stateOf (add_to_es envAllOk infoFT initExec)).metaNumData =
      (if envAllOk.metaOk then initExec.metaNumData + 1
       else initExec.metaNumData) ∧
    (envAllOk.metaOk = true →
      (stateOf (add_to_es envAllOk infoFT initExec)).metaLatestUpdate =
        envAllOk.now) :=
  c8_one_write_then_best_effort_metadata envAllOk infoFT initExec rfl
    (Or.inl rfl)

/-- C10: for every job whose target type is none of full_text, full_vector,
chunked_pairs, execute.start runs no pipeline stage and performs no
document-store write — the returned state differs from the incoming one
only in the cleared context fields and the final idle observation — yet it
still returns True, indistinguishable from a successful job. -/
theorem c10_unknown_type_silently_succeeds (env : Env) (info : JobInfo)
    (jt : String) (st : ExecState) (h1 : jt ≠ "full_text")
    (h2 : jt ≠ "full_vector") (h3 : jt ≠ "chunked_pairs") :
    execute_start env info jt st =
      .ok ({ st with info := none, output := none, current_step := "idle",
                     trace := st.trace ++ ["idle"] }, true) := by
  simp [execute_start, run_pipeline, h1, h2, h3]

/-- C10, witness: the unrecognized job type called other. -/
theorem c10_unknown_type_silently_succeeds_witness :
    execute_start envAllOk infoFT "other" initExec =
      .ok ({ initExec with info := none, output := none,
                           current_step := "idle",
                           trace := initExec.trace ++ ["idle"] }, true) :=
  c10_unknown_type_silently_succeeds envAllOk infoFT "other" initExec
    (by decide) (by decide) (by decide)

end ERM
